import Mathlib

/-!
Verification development for the resume one-page auto-fit system.

The JavaScript sources are shallowly embedded:
* `js/controller.js` (`ResumeStateManager`): JSON-like state values, the
  `reducer`, `dispatch`, `subscribe` / `notifyListeners`.
* `js/config.example.js` (`RenderTaskProcessor`, `getRenderPriority`): the
  render task queue and its debounce-fired `processQueue`.
* `js/resume_renderer.js`: the handshake protocol, the single-flight
  `handlePagedRender` pass (split at its one suspension point, the oracle
  invocation, into `renderBegin` / `renderFinish`), and the bidirectional
  auto-fit engine (`applyShrinkStep`, `applyExpandStep`, the shrink and
  expand loops, `checkContentFill`).

Numeric style values are modelled as rationals (the idealisation of the
JavaScript floats), and the pagination oracle as a pure function from a
style snapshot to a page count, matching the deterministic
`render(styleSnapshot, content) -> measurement` contract.
-/

/-! ## JSON-like values (the JavaScript objects held by the state store)

`JSON.parse(JSON.stringify(v))` is the identity on this model, which is the
observable behaviour of the store's deep copies for the JSON-serialisable
state it holds (`new Date()` values are passed in already serialised). -/

inductive Value where
  | vnull : Value
  | vbool : Bool → Value
  | vnum : ℚ → Value
  | vstr : String → Value
  | varr : List Value → Value
  | vobj : List (String × Value) → Value

/-- Read a field of a JavaScript object (`undefined`/missing modelled as `vnull`). -/
def getField (v : Value) (k : String) : Value :=
  match v with
  | .vobj fs => ((fs.find? (fun p => p.1 = k)).map (fun p => p.2)).getD .vnull
  | _ => .vnull

/-- Assign one key of a JavaScript object, keeping key order (existing key is
overwritten in place, a new key is appended), as property assignment does. -/
def setKey (fs : List (String × Value)) (k : String) (x : Value) : List (String × Value) :=
  if fs.any (fun p => p.1 = k) then
    fs.map (fun p => if p.1 = k then (k, x) else p)
  else fs ++ [(k, x)]

def setField (v : Value) (k : String) (x : Value) : Value :=
  match v with
  | .vobj fs => .vobj (setKey fs k x)
  | _ => .vobj [(k, x)]

/-- Object spread `\x7b...a, ...b\x7d`: all keys of `a`, overridden/extended by `b`. -/
def mergeObj (a b : Value) : Value :=
  match a, b with
  | .vobj fa, .vobj fb => .vobj (fb.foldl (fun acc p => setKey acc p.1 p.2) fa)
  | .vobj _, _ => a
  | _, _ => b

/-- Rest destructuring `const \x7bsource, ...styles\x7d = action.payload`:
the object without the named key. -/
def removeField (v : Value) (k : String) : Value :=
  match v with
  | .vobj fs => .vobj (fs.filter (fun p => p.1 ≠ k))
  | _ => v

/-! ## ResumeStateManager (js/controller.js) -/

/-- A dispatched action: `\x7b type, payload \x7d`. -/
structure ActionV where
  type : String
  payload : Value

/-- A subscriber callback, abstracted to an identifier plus whether invoking
it throws (the thrown exception is caught and logged by `notifyListeners`). -/
structure Callback where
  id : ℕ
  throws : Bool
deriving DecidableEq

/-- A history entry: `\x7b action, oldState, newState \x7d` (timestamp omitted). -/
structure HistEntry where
  action : ActionV
  oldState : Value
  newState : Value

structure ManagerState where
  state : Value
  middleware : List (ActionV → Value → Option ActionV)
  history : List HistEntry
  /-- The `this.listeners` map from topic to callback array, in insertion order. -/
  listeners : List (String × List Callback)

/-- The `getInitialState()` value of `ResumeStateManager`. -/
def initialStateValue : Value :=
  .vobj [
    ("content", .vobj [("markdown", .vstr ""), ("html", .vstr ""),
      ("lastModified", .vnull), ("source", .vnull)]),
    ("styles", .vobj [("fontSize", .vnum 16), ("lineHeight", .vnum (8/5)),
      ("margins", .vobj [("top", .vnum 20), ("bottom", .vnum 20),
        ("left", .vnum 20), ("right", .vnum 20)]),
      ("fontFamily", .vstr "Arial, sans-serif")]),
    ("pagedjs", .vobj [("isReady", .vbool false), ("isRendering", .vbool false),
      ("lastRenderTime", .vnull), ("pageCount", .vnum 0),
      ("renderQueue", .varr []), ("error", .vnull)]),
    ("ui", .vobj [("debugMode", .vbool false), ("previewMode", .vstr "web"),
      ("showPageNumbers", .vbool true), ("loading", .vbool false)])
  ]

/-- The transition function `ResumeStateManager.reducer(state, action)`.
The JavaScript first takes a
deep copy of `state`; on this model the copy is the value itself.  `now` is
the serialised `new Date()` used by the `SET_CONTENT` branch. -/
def reducer (state : Value) (action : ActionV) (now : Value) : Value :=
  if action.type = "SET_CONTENT" then
    setField state "content"
      (setField (mergeObj (getField state "content") action.payload) "lastModified" now)
  else if action.type = "SET_STYLES" then
    setField state "styles"
      (mergeObj (getField state "styles") (removeField action.payload "source"))
  else if action.type = "UPDATE_STYLES" then
    setField state "styles" (mergeObj (getField state "styles") action.payload)
  else if action.type = "SET_LOADING_STATE" then
    setField state "ui" (mergeObj (getField state "ui") action.payload)
  else if action.type = "SET_CURRENT_FILE" then
    setField state "files"
      (setField (setField (setField (getField state "files")
        "currentFileId" (getField action.payload "fileId"))
        "currentFileName" (getField action.payload "fileName"))
        "currentFilePath" (getField action.payload "filePath"))
  else if action.type = "PAGEDJS_STATE_CHANGE" then
    setField state "pagedjs" (mergeObj (getField state "pagedjs") action.payload)
  else if action.type = "UI_STATE_CHANGE" then
    setField state "ui" (mergeObj (getField state "ui") action.payload)
  else if action.type = "RESET_STATE" then
    mergeObj (mergeObj state initialStateValue)
      (.vobj [("styles", getField state "styles"),
              ("ui", setField (getField state "ui") "loading" (.vbool false))])
  else
    -- default: warn about the unknown action type and return the copy unchanged
    state

/-- The middleware chain of `dispatch`: each middleware may rewrite the
action (`if (result) processedAction = result`). -/
def applyMiddleware (mws : List (ActionV → Value → Option ActionV))
    (a : ActionV) (old : Value) : ActionV :=
  mws.foldl (fun pa mw => (mw pa old).getD pa) a

/-- The effect of `notifyListeners(action, oldState, newState)`: iterate over every topic of
the `Map` and every callback of each topic, calling each inside `try/catch`.
The result is the attempt log: `(topic, callback id, threw-and-was-caught)`
for every callback, in iteration order. -/
def notifyAttempts (listeners : List (String × List Callback)) :
    List (String × ℕ × Bool) :=
  listeners.flatMap (fun p => p.2.map (fun cb => (p.1, cb.id, cb.throws)))

/-- The effect of `subscribe(key, callback)` on the listener map: create the
topic entry if absent, then push. -/
def subscribeSM (listeners : List (String × List Callback)) (key : String)
    (cb : Callback) : List (String × List Callback) :=
  if listeners.any (fun p => p.1 = key) then
    listeners.map (fun p => if p.1 = key then (p.1, p.2 ++ [cb]) else p)
  else listeners ++ [(key, [cb])]

/-- History push then `if (length > 50) shift()`. -/
def trimHistory (h : List HistEntry) : List HistEntry :=
  if h.length > 50 then h.tail else h

/-- The store entry point `dispatch(action)`: run the middleware chain, reduce, record history
(bounded to 50 entries), notify every listener.  Returns the new manager
state, the processed action, and the notification attempt log. -/
def dispatchSM (st : ManagerState) (a : ActionV) (now : Value) :
    ManagerState × ActionV × List (String × ℕ × Bool) :=
  let old := st.state
  let pa := applyMiddleware st.middleware a old
  let new := reducer old pa now
  let h := trimHistory (st.history ++ [⟨pa, old, new⟩])
  ({ st with state := new, history := h }, pa, notifyAttempts st.listeners)

/-! ## RenderTaskProcessor (js/config.example.js) -/

/-- A render task built by the PagedJs middleware. -/
structure RenderTask where
  id : String
  reason : String
  timestamp : ℤ
  priority : ℤ
  payload : String
deriving DecidableEq

/-- The table `getRenderPriority(actionType)` (lower value = scheduled sooner). -/
def getRenderPriority (actionType : String) : ℤ :=
  if actionType = "SET_CONTENT" then 1
  else if actionType = "UPDATE_STYLES" then 2
  else if actionType = "UI_STATE_CHANGE" then 3
  else 5

/-- Stable insertion into a priority-sorted list (the observable behaviour of
`queue.sort((a, b) => a.priority - b.priority)` in a modern engine). -/
def insertByPriority (x : RenderTask) : List RenderTask → List RenderTask
  | [] => [x]
  | y :: ys => if y.priority ≤ x.priority then y :: insertByPriority x ys
               else x :: y :: ys

def sortTasks : List RenderTask → List RenderTask
  | [] => []
  | x :: xs => insertByPriority x (sortTasks xs)

/-- The `state.pagedjs` slice read and written by the processor. -/
structure PagedJsState where
  isRendering : Bool
  renderQueue : List RenderTask
  error : Option String
  lastRenderTime : Option ℤ
deriving DecidableEq

structure ProcState where
  isProcessing : Bool
  pagedjs : PagedJsState
deriving DecidableEq

/-- The debounce-timer callback `RenderTaskProcessor.processQueue()`.
`execOk` is whether `executeRenderTask` resolves or throws, `now` the clock
reading for `lastRenderTime`.  The returned list is the sequence of tasks
handed to `executeRenderTask`.  The guard returns early if a pass is already
processing or rendering or the queue is empty; otherwise the queue is copied,
sorted by ascending priority, and only its first task is executed.  On
success the state change clears the whole queue; on failure it records the
error and leaves the queue untouched.  `isProcessing` is reset in `finally`. -/
def processQueue (st : ProcState) (execOk : Bool) (now : ℤ) :
    ProcState × List RenderTask :=
  if st.isProcessing ∨ st.pagedjs.isRendering ∨ st.pagedjs.renderQueue.isEmpty then
    (st, [])
  else
    match sortTasks st.pagedjs.renderQueue with
    | [] => (st, [])
    | nextTask :: _ =>
      if execOk then
        ({ st with pagedjs := { st.pagedjs with
            isRendering := false, renderQueue := [],
            error := none, lastRenderTime := some now } }, [nextTask])
      else
        ({ st with pagedjs := { st.pagedjs with
            isRendering := false, error := some "render failed" } }, [nextTask])

/-! ## The render context's paged render pass (js/resume_renderer.js)

`handlePagedRender` is `async`; its only suspension point is
`await previewer.preview()`.  It is therefore embedded in two synchronous
halves: `renderBegin` (everything up to and including starting the pass, or
queueing the request when the lock is held) and `renderFinish` (the rest of
the `try`, the `catch`, and the `finally`, given the oracle's outcome).
The recursive `handlePagedRender(nextStyles)` of the `finally` block is
returned as the `retry` request rather than re-entered. -/

/-- The `state.currentStyles` cache: a CSS-variable → value map. -/
def Styles : Type := String → Option String

/-- The merge `Object.assign(state.currentStyles, extraStyles)`. -/
def mergeStyles (base extra : Styles) : Styles :=
  fun k => match extra k with
  | some v => some v
  | none => base k

/-- The renderer-side mutable state (`let state = \x7b...\x7d`). -/
structure RState where
  originalBody : String
  originalHead : String
  isRendering : Bool
  pendingRenderRequest : Option Styles
  currentStyles : Styles

/-- Messages posted between the two contexts. -/
inductive MsgType where
  | ready
  | ackMsg
  | rendering
  | rendered
  | renderCompleteMsg
  | errorMsg
deriving DecidableEq

/-- The live document: body / head markup, the CSS variables set on the root
element's inline style, the injected `@page` A4 rule, and whether the
`render-complete` class has been added to the body. -/
structure Doc where
  body : String
  head : String
  cssVars : Styles
  a4Margin : Option String
  renderComplete : Bool

structure BeginResult where
  st : RState
  /-- Holds `some snapshot` iff a pass actually started (with that style snapshot);
  `none` when the lock was held and the request was queued. -/
  started : Option Styles
  emitted : List MsgType

/-- What one completed call reports to its caller and surroundings. -/
structure Report where
  /-- whether an exception propagated out of `handlePagedRender`. -/
  threw : Bool
  /-- whether `console.error` was called with the failure. -/
  errorLogged : Bool
  emitted : List MsgType

structure FinishResult where
  st : RState
  doc : Doc
  report : Report
  /-- the pending request replayed by the `finally` block, if any. -/
  retry : Option Styles

/-- First half of `handlePagedRender(extraStyles)`: merge the extra styles,
then either queue the request (lock held: `pendingRenderRequest` becomes a
copy of the merged current styles — last write wins) or take the lock and
start a pass, posting `rendering` to the parent. -/
def renderBegin (s : RState) (extra : Styles) : BeginResult :=
  let cs := mergeStyles s.currentStyles extra
  if s.isRendering then
    { st := { s with currentStyles := cs, pendingRenderRequest := some cs },
      started := none, emitted := [] }
  else
    { st := { s with currentStyles := cs, isRendering := true },
      started := some cs, emitted := [.rendering] }

/-- Second half of `handlePagedRender`, entered with the lock held.
`oracle = some pagedBody` models `previewer.preview()` resolving and leaving
the paginated markup in the body; `oracle = none` models it throwing.

`try`: restore the clean DOM from the captured baseline (each part only if
non-empty, matching the truthiness guards), re-apply the current styles to
the root, re-inject the A4 page rule, invoke the oracle; on success add the
`render-complete` class and post `rendered` / `RENDER_COMPLETE`.
`catch`: log the error and restore body and head from the baseline; nothing
is recorded in state, no message is posted, nothing is re-thrown.
`finally`: release the lock and hand back the pending request, if any. -/
def renderFinish (s : RState) (doc : Doc) (oracle : Option String) : FinishResult :=
  let doc1 : Doc :=
    { doc with
      body := if s.originalBody ≠ "" then s.originalBody else doc.body,
      head := if s.originalHead ≠ "" then s.originalHead else doc.head }
  let cssVars2 := mergeStyles doc1.cssVars s.currentStyles
  let doc2 : Doc :=
    { doc1 with
      cssVars := cssVars2,
      a4Margin := some ((cssVars2 "--page-margin").getD "7mm") }
  let afterTry : Doc × Report :=
    match oracle with
    | some pagedBody =>
      ({ doc2 with body := pagedBody, renderComplete := true },
       { threw := false, errorLogged := false,
         emitted := [.rendered, .renderCompleteMsg] })
    | none =>
      ({ doc2 with body := s.originalBody, head := s.originalHead },
       { threw := false, errorLogged := true, emitted := [] })
  let s1 : RState := { s with isRendering := false }
  match s1.pendingRenderRequest with
  | some p =>
    { st := { s1 with pendingRenderRequest := none }, doc := afterTry.1,
      report := afterTry.2, retry := some p }
  | none =>
    { st := s1, doc := afterTry.1, report := afterTry.2, retry := none }

/-! ## Handshake protocol (js/resume_renderer.js and js/controller.js)

The iframe and its `contentWindow` exist whenever the controller runs
(`init()` throws otherwise), so the presence guard of
`sendMessageToIframe` is modelled as satisfied. -/

/-- Render-context handshake state: whether `state.handshakeInterval` is an
active interval, and `state.isHandshakeComplete`. -/
structure RendererHS where
  handshakeActive : Bool
  isHandshakeComplete : Bool
deriving DecidableEq

/-- The setup `startHandshake()`: install the READY-broadcast interval. -/
def startHandshake (r : RendererHS) : RendererHS :=
  { r with handshakeActive := true }

/-- One firing of the handshake interval: posts `READY` to the parent while
the interval is installed; a cleared interval no longer fires. -/
def handshakeTick (r : RendererHS) : List MsgType :=
  if r.handshakeActive then [.ready] else []

/-- The `ACK` branch of the render context's message handler:
`clearInterval` and mark the handshake complete. -/
def rendererOnAck (_ : RendererHS) : RendererHS :=
  { handshakeActive := false, isHandshakeComplete := true }

/-- What the host posts into the iframe. -/
inductive HostPost where
  | ack
  | cmd (data : String)
deriving DecidableEq

/-- Host-side controller state relevant to the handshake. -/
structure HostState where
  isIframeReady : Bool
  messageQueue : List String
deriving DecidableEq

/-- The host send path `ResumeController.sendMessageToIframe(data)`: post directly once the
iframe is ready, otherwise buffer the command. -/
def sendMessageToIframe (h : HostState) (data : String) :
    HostState × List HostPost :=
  if h.isIframeReady then (h, [.cmd data])
  else ({ h with messageQueue := h.messageQueue ++ [data] }, [])

/-- Send a whole list of commands in order, collecting the posts. -/
def sendAll (h : HostState) (cmds : List String) : HostState × List HostPost :=
  match cmds with
  | [] => (h, [])
  | c :: cs =>
    let r := sendMessageToIframe h c
    let r' := sendAll r.1 cs
    (r'.1, r.2 ++ r'.2)

/-- The host handler `ResumeController.handleViewerReady()` (on `READY`): mark the iframe
ready, post `ACK`, then flush the buffered queue front-to-back. -/
def handleViewerReady (h : HostState) : HostState × List HostPost :=
  ({ isIframeReady := true, messageQueue := [] },
   .ack :: h.messageQueue.map HostPost.cmd)

/-! ## Bidirectional auto-fit engine (`window.simpleViewer`, js/resume_renderer.js)

Style values read back through `getComputedStyle` + `parseFloat` are
modelled as a total map from CSS variable name to rational value (every
auto-fit variable always holds a numeric value with its fixed unit, so the
`isNaN` skip never fires).  The pagination oracle is a pure function
`StyleMap → ℕ` giving the page count `renderAndCount` observes after a pass
with that snapshot, and the fill measurement a pure function
`StyleMap → ℚ` giving the raw fill ratio `checkContentFill` computes. -/

def StyleMap : Type := String → ℚ

def updateVar (m : StyleMap) (v : String) (x : ℚ) : StyleMap :=
  fun w => if w = v then x else m w

/-- The rounding `Math.round(x * 100) / 100`: round to two decimal places
(JavaScript `Math.round` is `⌊x + 1/2⌋`, exactly Mathlib's `round`). -/
def round2 (q : ℚ) : ℚ := (round (q * 100) : ℚ) / 100

/-- One entry of `shrinkStrategies`. -/
structure ShrinkStrat where
  name : String
  cssVar : String
  step : ℚ
  unit : String
  min : ℚ
deriving DecidableEq

/-- One entry of `expandStrategies`. -/
structure ExpandStrat where
  name : String
  cssVar : String
  step : ℚ
  unit : String
  max : ℚ
deriving DecidableEq

/-- The list `shrinkStrategies` as built in `fitToOnePage` with the step and bound
values drawn from `ResumeConfig.sliderConfig` (js/config.example.js). -/
def shrinkStrategies : List ShrinkStrat :=
  [ { name := "pageMargin", cssVar := "--page-margin", step := 1, unit := "mm", min := 7 },
    { name := "bodyMargin", cssVar := "--body-margin", step := 1/10, unit := "em", min := 0 },
    { name := "ulMargin", cssVar := "--ul-margin", step := 1/10, unit := "em", min := 0 },
    { name := "headingScale", cssVar := "--heading-scale", step := 1/10, unit := "", min := 1 },
    { name := "lineHeight", cssVar := "--line-height", step := 1/20, unit := "", min := 1 },
    { name := "fontSize", cssVar := "--body-font-size", step := 1/2, unit := "pt", min := 9 } ]

/-- The list `expandStrategies` as built in `fitToOnePage`, bounds from `sliderConfig`. -/
def expandStrategies : List ExpandStrat :=
  [ { name := "fontSize", cssVar := "--body-font-size", step := 1/2, unit := "pt", max := 13 },
    { name := "lineHeight", cssVar := "--line-height", step := 1/20, unit := "", max := 17/10 },
    { name := "headingScale", cssVar := "--heading-scale", step := 1/10, unit := "", max := 17/10 },
    { name := "bodyMargin", cssVar := "--body-margin", step := 1/10, unit := "em", max := 1/2 },
    { name := "ulMargin", cssVar := "--ul-margin", step := 1/10, unit := "em", max := 1/2 },
    { name := "pageMargin", cssVar := "--page-margin", step := 1, unit := "mm", max := 21 } ]

/-- The helper `applyShrinkStep()`: scan the shrink order for the first parameter whose
current value is above its minimum (by more than the `0.001` epsilon); for
it compute `newVal = round2(max(min, val - step))`.  Returns the chosen
strategy, the previous value and the new value written by
`handleStyleUpdate`, or `none` when every parameter has hit its limit. -/
def applyShrinkStep (strats : List ShrinkStrat) (m : StyleMap) :
    Option (ShrinkStrat × ℚ × ℚ) :=
  match strats with
  | [] => none
  | strat :: rest =>
    if strat.min + 1/1000 < m strat.cssVar then
      some (strat, m strat.cssVar,
        round2 (max strat.min (m strat.cssVar - strat.step)))
    else applyShrinkStep rest m

/-- The helper `applyExpandStep()`: scan the expand order for the first parameter whose
current value is below its maximum (by more than the `0.001` epsilon); for
it compute `newVal = round2(min(max, val + step))`. -/
def applyExpandStep (strats : List ExpandStrat) (m : StyleMap) :
    Option (ExpandStrat × ℚ × ℚ) :=
  match strats with
  | [] => none
  | strat :: rest =>
    if m strat.cssVar < strat.max - 1/1000 then
      some (strat, m strat.cssVar,
        round2 (min strat.max (m strat.cssVar + strat.step)))
    else applyExpandStep rest m

/-- The ceiling `const maxIterations = 25` in `fitToOnePage`. -/
def fitMaxIterations : ℕ := 25

/-- Result of one of the auto-fit loops. -/
structure LoopResult where
  styles : StyleMap
  pageCount : ℕ
  iterations : ℕ
  /-- the snapshots handed to `renderAndCount`, in order. -/
  renders : List StyleMap

/-- The shrink loop of `fitToOnePage`:
`while (pageCount > 1 && iteration < maxIterations)` apply one shrink step
(stop if none applies), re-render once, re-read the page count.  `fuel` is
the remaining iteration budget `maxIterations - iteration`. -/
def shrinkLoop (oracle : StyleMap → ℕ) (strats : List ShrinkStrat) :
    ℕ → StyleMap → ℕ → LoopResult
  | 0, m, pc => ⟨m, pc, 0, []⟩
  | fuel + 1, m, pc =>
    if 1 < pc then
      match applyShrinkStep strats m with
      | none => ⟨m, pc, 0, []⟩
      | some (strat, _, newVal) =>
        let m' := updateVar m strat.cssVar newVal
        let pc' := oracle m'
        let r := shrinkLoop oracle strats fuel m' pc'
        ⟨r.styles, r.pageCount, r.iterations + 1, m' :: r.renders⟩
    else ⟨m, pc, 0, []⟩

/-- The expand loop of `fitToOnePage`:
`while (pageCount === 1 && iteration < maxIterations)` re-check sparsity
(stop when `fillRatio ≥ 0.85`), apply one expand step (stop if none
applies), re-render; if the step overshot to more than one page, revert that
single parameter to its previous value, do one corrective render, and stop
(the rollback `break` happens before `iteration++`). -/
def expandLoop (oracle : StyleMap → ℕ) (fill : StyleMap → ℚ)
    (strats : List ExpandStrat) : ℕ → StyleMap → ℕ → LoopResult
  | 0, m, pc => ⟨m, pc, 0, []⟩
  | fuel + 1, m, pc =>
    if pc = 1 then
      if fill m < 17/20 then
        match applyExpandStep strats m with
        | none => ⟨m, pc, 0, []⟩
        | some (strat, prevVal, newVal) =>
          let m' := updateVar m strat.cssVar newVal
          let pc' := oracle m'
          if 1 < pc' then
            let m'' := updateVar m' strat.cssVar prevVal
            let pc'' := oracle m''
            ⟨m'', pc'', 0, [m', m'']⟩
          else
            let r := expandLoop oracle fill strats fuel m' pc'
            ⟨r.styles, r.pageCount, r.iterations + 1, m' :: r.renders⟩
      else ⟨m, pc, 0, []⟩
    else ⟨m, pc, 0, []⟩

/-- One auto-fit adjustment, as `fitToOnePage` performs it: select a
parameter with `applyShrinkStep` / `applyExpandStep` and write its new
value through `handleStyleUpdate` (no parameter with headroom: no change). -/
inductive FitOp where
  | shrinkOp
  | expandOp
deriving DecidableEq

def fitStep (shrinks : List ShrinkStrat) (expands : List ExpandStrat) :
    FitOp → StyleMap → StyleMap
  | .shrinkOp, m =>
    match applyShrinkStep shrinks m with
    | none => m
    | some (s, _, newVal) => updateVar m s.cssVar newVal
  | .expandOp, m =>
    match applyExpandStep expands m with
    | none => m
    | some (e, _, newVal) => updateVar m e.cssVar newVal

def runFit (shrinks : List ShrinkStrat) (expands : List ExpandStrat)
    (ops : List FitOp) (m : StyleMap) : StyleMap :=
  ops.foldl (fun acc op => fitStep shrinks expands op acc) m

/-- Every parameter named by a shrink strategy sits at or above that
strategy's minimum, and every parameter named by an expand strategy at or
below that strategy's maximum. -/
def stylesWithinBounds (shrinks : List ShrinkStrat)
    (expands : List ExpandStrat) (m : StyleMap) : Prop :=
  (∀ s ∈ shrinks, s.min ≤ m s.cssVar) ∧ (∀ e ∈ expands, m e.cssVar ≤ e.max)

/-- The DOM geometry read by `checkContentFill`. -/
structure FillDom where
  /-- a `.pagedjs_page_content` element exists. -/
  hasPageContent : Bool
  /-- a `.pagedjs_pagebox` element exists. -/
  hasPageBox : Bool
  /-- number of descendant elements of the page content. -/
  childCount : ℕ
  /-- Reading of `pageContent.scrollHeight`. -/
  scrollHeight : ℚ
  /-- Reading of `pageContent.getBoundingClientRect().top`. -/
  contentTop : ℚ
  /-- Reading of `lastChild.getBoundingClientRect().bottom`. -/
  lastChildBottom : ℚ
  /-- Reading of `pageBox.clientHeight`. -/
  pageBoxClientHeight : ℚ
deriving DecidableEq

/-- The raw fill quotient `checkContentFill` computes: actual content height
(to the last descendant's bottom edge when one exists, else the scroll
height) divided by the page box's available height. -/
def contentFillFrac (d : FillDom) : ℚ :=
  (if 0 < d.childCount then d.lastChildBottom - d.contentTop else d.scrollHeight) /
    d.pageBoxClientHeight

/-- The measurement `simpleViewer.checkContentFill()`: `(isSparse, ratio)` where `isSparse`
compares the raw quotient with `0.85` and the reported ratio is rounded to
two decimals (`parseFloat(fillRatio.toFixed(2))`); missing Paged.js
elements yield `(false, 1.0)`. -/
def checkContentFill (d : FillDom) : Bool × ℚ :=
  if d.hasPageContent = false then (false, 1)
  else if d.hasPageBox = false then (false, 1)
  else (decide (contentFillFrac d < 17/20), round2 (contentFillFrac d))

inductive Direction where
  | shrink
  | expand
  | noneDir
deriving DecidableEq

/-- The direction selection of `fitToOnePage` after the initial measured
pass: shrink when the page count exceeds one, else expand when the page
count is one and the fill measurement reports sparse content (otherwise the
direction stays none). -/
def fitDirection (pageCount : ℕ) (isSparse : Bool) : Direction :=
  if 1 < pageCount then .shrink
  else if pageCount = 1 ∧ isSparse then .expand
  else .noneDir

/-! ## Concrete instances used by witnesses and counterexamples -/

/-- Three subscribers on three different topics; the `styles` one throws. -/
def exListeners : List (String × List Callback) :=
  [("content", [⟨1, false⟩]), ("styles", [⟨2, true⟩]), ("render-status", [⟨3, false⟩])]

def exManager : ManagerState :=
  { state := initialStateValue, middleware := [], history := [], listeners := exListeners }

def exActionUnknown : ActionV := { type := "BOGUS_ACTION", payload := .vnull }

def exActionStyles : ActionV :=
  { type := "UPDATE_STYLES", payload := .vobj [("fontSize", .vnum 12)] }

def exNow : Value := .vstr "2026-10-12T00:00:00.000Z"

def exTask1 : RenderTask :=
  { id := "render_a", reason := "SET_CONTENT", timestamp := 0,
    priority := getRenderPriority "SET_CONTENT", payload := "resume.md" }

def exTask2 : RenderTask :=
  { id := "render_b", reason := "UPDATE_STYLES", timestamp := 10,
    priority := getRenderPriority "UPDATE_STYLES", payload := "fontSize" }

/-- A debounced queue holding a styles task (older) and a content task. -/
def exProc : ProcState :=
  { isProcessing := false,
    pagedjs := { isRendering := false, renderQueue := [exTask2, exTask1],
                 error := none, lastRenderTime := none } }

def exStylesEmpty : Styles := fun _ => none

def exStylesFont : Styles :=
  fun k => if k = "--body-font-size" then some "10pt" else none

def exStylesMargin : Styles :=
  fun k => if k = "--page-margin" then some "9mm" else none

/-- A render context mid-pass (the lock is held). -/
def exRStateBusy : RState :=
  { originalBody := "<div id=x22contentx22></div>", originalHead := "<style></style>",
    isRendering := true, pendingRenderRequest := none,
    currentStyles := exStylesEmpty }

/-- An idle render context with a captured baseline. -/
def exRStateIdle : RState :=
  { originalBody := "<div id=x22contentx22></div>", originalHead := "<style></style>",
    isRendering := false, pendingRenderRequest := none,
    currentStyles := exStylesFont }

def exDoc : Doc :=
  { body := "<section class=x22pagedjs_pagex22></section>", head := "<style></style>",
    cssVars := exStylesEmpty, a4Margin := none, renderComplete := false }

def exHostFresh : HostState := { isIframeReady := false, messageQueue := [] }

def exRendererHS : RendererHS := { handshakeActive := true, isHandshakeComplete := false }

/-- The default style values applied by `applyDefaultStyles`
(`ResumeConfig.defaultStyles`), as the numeric map the auto-fit reads. -/
def defaultStyleMap : StyleMap := fun v =>
  if v = "--body-font-size" then 9
  else if v = "--heading-scale" then 17/10
  else if v = "--line-height" then 29/20
  else if v = "--page-margin" then 7
  else if v = "--title-hr-margin" then 0
  else if v = "--body-margin" then 1/2
  else if v = "--ul-margin" then 0
  else if v = "--strong-paragraph-margin" then 1/5
  else 0

/-- Styles with the page margin half a step above its minimum while the body
margin still has a full step of headroom. -/
def exShrinkMap : StyleMap := fun v =>
  if v = "--page-margin" then 15/2
  else if v = "--body-margin" then 3/10
  else defaultStyleMap v

/-- A page-count oracle for which any font size above 9pt overflows to two
pages. -/
def exOracle : StyleMap → ℕ :=
  fun m => if 9 < m "--body-font-size" then 2 else 1

/-- A fill measurement that always reports a 40% fill. -/
def exFill : StyleMap → ℚ := fun _ => 2/5

/-- Geometry of a sparsely filled single page. -/
def exFillDom : FillDom :=
  { hasPageContent := true, hasPageBox := true, childCount := 12,
    scrollHeight := 500, contentTop := 100, lastChildBottom := 500,
    pageBoxClientHeight := 1000 }

/-- A burst of adjustments: two shrink steps, an expand step, a shrink step. -/
def exOps : List FitOp := [.shrinkOp, .shrinkOp, .expandOp, .shrinkOp]

/-! ## Helper lemmas -/

/-- The reducer's `default` branch: an action whose type matches no case
leaves the (copied) state untouched. -/
theorem reducer_of_unknown_type (state : Value) (a : ActionV) (now : Value)
    (h : a.type ∉ (["SET_CONTENT", "SET_STYLES", "UPDATE_STYLES",
      "SET_LOADING_STATE", "SET_CURRENT_FILE", "PAGEDJS_STATE_CHANGE",
      "UI_STATE_CHANGE", "RESET_STATE"] : List String)) :
    reducer state a now = state := by
  simp only [List.mem_cons, List.not_mem_nil, or_false, not_or] at h
  obtain ⟨h1, h2, h3, h4, h5, h6, h7, h8⟩ := h
  simp [reducer, h1, h2, h3, h4, h5, h6, h7, h8]

/-- Every registered callback, under every topic, appears in the
notification attempt log. -/
theorem mem_notifyAttempts (ls : List (String × List Callback)) (k : String)
    (cbs : List Callback) (cb : Callback) (hk : (k, cbs) ∈ ls) (hcb : cb ∈ cbs) :
    (k, cb.id, cb.throws) ∈ notifyAttempts ls := by
  unfold notifyAttempts
  exact List.mem_flatMap.mpr ⟨(k, cbs), hk, List.mem_map_of_mem _ hcb⟩

/-- The attempt log has exactly one entry per registered callback: no
callback is skipped, whatever the throw flags of the others are. -/
theorem length_notifyAttempts (ls : List (String × List Callback)) :
    (notifyAttempts ls).length = (ls.map (fun p => p.2.length)).sum := by
  induction ls with
  | nil => rfl
  | cons p rest ih =>
    simp [notifyAttempts, List.flatMap_cons, List.length_append] at ih ⊢
    exact ih


theorem mem_insertByPriority (x y : RenderTask) (l : List RenderTask) :
    y ∈ insertByPriority x l ↔ y = x ∨ y ∈ l := by
  induction l with
  | nil => simp [insertByPriority]
  | cons z zs ih =>
    by_cases h : z.priority ≤ x.priority
    · simp only [insertByPriority, if_pos h, List.mem_cons, ih]
      try tauto
    · simp only [insertByPriority, if_neg h, List.mem_cons]
      try tauto

theorem mem_sortTasks (y : RenderTask) (l : List RenderTask) :
    y ∈ sortTasks l ↔ y ∈ l := by
  induction l with
  | nil => simp [sortTasks]
  | cons x xs ih => simp [sortTasks, mem_insertByPriority, ih]

theorem sortTasks_eq_nil (l : List RenderTask) (h : sortTasks l = []) :
    l = [] := by
  cases l with
  | nil => rfl
  | cons x xs =>
    have hx : x ∈ sortTasks (x :: xs) :=
      (mem_sortTasks x (x :: xs)).mpr (List.mem_cons_self x xs)
    rw [h] at hx
    exact absurd hx (List.not_mem_nil x)

/-- The three shapes `insertByPriority x s` can take, with the comparison
that produced each. -/
theorem insertByPriority_cases (x : RenderTask) (s : List RenderTask) :
    (s = [] ∧ insertByPriority x s = [x]) ∨
    (∃ z zs, s = z :: zs ∧ z.priority ≤ x.priority ∧
      insertByPriority x s = z :: insertByPriority x zs) ∨
    (∃ z zs, s = z :: zs ∧ ¬ z.priority ≤ x.priority ∧
      insertByPriority x s = x :: z :: zs) := by
  cases s with
  | nil => exact Or.inl ⟨rfl, rfl⟩
  | cons z zs =>
    by_cases h : z.priority ≤ x.priority
    · exact Or.inr (Or.inl ⟨z, zs, rfl, h, by simp [insertByPriority, if_pos h]⟩)
    · exact Or.inr (Or.inr ⟨z, zs, rfl, h, by simp [insertByPriority, if_neg h]⟩)

/-- The first task after the stable sort has minimal priority value. -/
theorem sortTasks_head_min (l : List RenderTask) (t : RenderTask)
    (rest : List RenderTask) (h : sortTasks l = t :: rest) :
    ∀ u ∈ l, t.priority ≤ u.priority := by
  induction l generalizing t rest with
  | nil => simp [sortTasks] at h
  | cons x xs ih =>
    simp only [sortTasks] at h
    rcases insertByPriority_cases x (sortTasks xs) with
      ⟨hnil, heq⟩ | ⟨z, zs, hs, hz, heq⟩ | ⟨z, zs, hs, hz, heq⟩
    · rw [heq] at h
      have hx : t = x := ((List.cons_eq_cons.mp h).1).symm
      have hxs : xs = [] := sortTasks_eq_nil xs hnil
      subst hx; subst hxs
      intro u hu
      rcases List.mem_cons.mp hu with rfl | hu'
      · exact le_rfl
      · exact absurd hu' (List.not_mem_nil u)
    · rw [heq] at h
      have ht : t = z := ((List.cons_eq_cons.mp h).1).symm
      subst ht
      have hmin := ih t zs hs
      intro u hu
      rcases List.mem_cons.mp hu with rfl | hu'
      · exact hz
      · exact hmin u hu'
    · rw [heq] at h
      have ht : t = x := ((List.cons_eq_cons.mp h).1).symm
      subst ht
      have hmin := ih z zs hs
      intro u hu
      rcases List.mem_cons.mp hu with rfl | hu'
      · exact le_rfl
      · exact le_trans (le_of_not_le hz) (hmin u hu')

/-- Merging a full copy of the same map with `Object.assign` is the identity. -/
theorem mergeStyles_self (m : Styles) : mergeStyles m m = m := by
  funext k
  unfold mergeStyles
  cases m k <;> rfl

/-- Rounding to two decimals is monotone. -/
theorem round2_mono {a b : ℚ} (h : a ≤ b) : round2 a ≤ round2 b := by
  unfold round2
  have h100 : a * 100 ≤ b * 100 := by nlinarith
  have : round (a * 100) ≤ round (b * 100) := by
    rw [round_eq, round_eq]
    exact Int.floor_le_floor (by linarith)
  have hc : ((round (a * 100) : ℤ) : ℚ) ≤ ((round (b * 100) : ℤ) : ℚ) := by
    exact_mod_cast this
  linarith

/-- The step `applyShrinkStep` returns `none` exactly when no parameter in the list
is above its minimum by more than the epsilon. -/
theorem applyShrinkStep_eq_none_iff (strats : List ShrinkStrat) (m : StyleMap) :
    applyShrinkStep strats m = none ↔
      ∀ s ∈ strats, ¬ (s.min + 1/1000 < m s.cssVar) := by
  induction strats with
  | nil => simp [applyShrinkStep]
  | cons strat rest ih =>
    by_cases h : strat.min + 1/1000 < m strat.cssVar
    · have hsome : applyShrinkStep (strat :: rest) m =
          some (strat, m strat.cssVar,
            round2 (max strat.min (m strat.cssVar - strat.step))) := by
        unfold applyShrinkStep
        rw [if_pos h]
      rw [hsome]
      constructor
      · intro habs; exact absurd habs (by simp)
      · intro hall; exact absurd h (hall strat (List.mem_cons_self _ _))
    · simp only [applyShrinkStep, if_neg h, ih]
      constructor
      · intro hall s hs
        rcases List.mem_cons.mp hs with rfl | hs'
        · exact h
        · exact hall s hs'
      · intro hall s hs
        exact hall s (List.mem_cons_of_mem _ hs)

/-- What a successful `applyShrinkStep` did: the chosen strategy is the
first in the order with headroom, the previous value is read from the map,
and the new value is the clamped, two-decimal-rounded single step. -/
theorem applyShrinkStep_eq_some (strats : List ShrinkStrat) (m : StyleMap)
    (s : ShrinkStrat) (prev newVal : ℚ)
    (h : applyShrinkStep strats m = some (s, prev, newVal)) :
    (∃ l1 l2, strats = l1 ++ s :: l2 ∧
      ∀ s' ∈ l1, ¬ (s'.min + 1/1000 < m s'.cssVar)) ∧
    s.min + 1/1000 < m s.cssVar ∧
    prev = m s.cssVar ∧
    newVal = round2 (max s.min (m s.cssVar - s.step)) := by
  induction strats with
  | nil => simp [applyShrinkStep] at h
  | cons strat rest ih =>
    by_cases hc : strat.min + 1/1000 < m strat.cssVar
    · simp only [applyShrinkStep, if_pos hc, Option.some.injEq, Prod.mk.injEq] at h
      obtain ⟨rfl, rfl, rfl⟩ := h
      exact ⟨⟨[], rest, rfl, by simp⟩, hc, rfl, rfl⟩
    · simp only [applyShrinkStep, if_neg hc] at h
      obtain ⟨⟨l1, l2, rfl, hl1⟩, hroom, hprev, hnew⟩ := ih h
      refine ⟨⟨strat :: l1, l2, rfl, ?_⟩, hroom, hprev, hnew⟩
      intro s' hs'
      rcases List.mem_cons.mp hs' with rfl | hs''
      · exact hc
      · exact hl1 s' hs''

/-- The step `applyExpandStep` returns `none` exactly when no parameter in the list
is below its maximum by more than the epsilon. -/
theorem applyExpandStep_eq_none_iff (strats : List ExpandStrat) (m : StyleMap) :
    applyExpandStep strats m = none ↔
      ∀ e ∈ strats, ¬ (m e.cssVar < e.max - 1/1000) := by
  induction strats with
  | nil => simp [applyExpandStep]
  | cons strat rest ih =>
    by_cases h : m strat.cssVar < strat.max - 1/1000
    · have hsome : applyExpandStep (strat :: rest) m =
          some (strat, m strat.cssVar,
            round2 (min strat.max (m strat.cssVar + strat.step))) := by
        unfold applyExpandStep
        rw [if_pos h]
      rw [hsome]
      constructor
      · intro habs; exact absurd habs (by simp)
      · intro hall; exact absurd h (hall strat (List.mem_cons_self _ _))
    · simp only [applyExpandStep, if_neg h, ih]
      constructor
      · intro hall e he
        rcases List.mem_cons.mp he with rfl | he'
        · exact h
        · exact hall e he'
      · intro hall e he
        exact hall e (List.mem_cons_of_mem _ he)

/-- What a successful `applyExpandStep` did. -/
theorem applyExpandStep_eq_some (strats : List ExpandStrat) (m : StyleMap)
    (e : ExpandStrat) (prev newVal : ℚ)
    (h : applyExpandStep strats m = some (e, prev, newVal)) :
    (∃ l1 l2, strats = l1 ++ e :: l2 ∧
      ∀ e' ∈ l1, ¬ (m e'.cssVar < e'.max - 1/1000)) ∧
    m e.cssVar < e.max - 1/1000 ∧
    prev = m e.cssVar ∧
    newVal = round2 (min e.max (m e.cssVar + e.step)) := by
  induction strats with
  | nil => simp [applyExpandStep] at h
  | cons strat rest ih =>
    by_cases hc : m strat.cssVar < strat.max - 1/1000
    · simp only [applyExpandStep, if_pos hc, Option.some.injEq, Prod.mk.injEq] at h
      obtain ⟨rfl, rfl, rfl⟩ := h
      exact ⟨⟨[], rest, rfl, by simp⟩, hc, rfl, rfl⟩
    · simp only [applyExpandStep, if_neg hc] at h
      obtain ⟨⟨l1, l2, rfl, hl1⟩, hroom, hprev, hnew⟩ := ih h
      refine ⟨⟨strat :: l1, l2, rfl, ?_⟩, hroom, hprev, hnew⟩
      intro e' he'
      rcases List.mem_cons.mp he' with rfl | he''
      · exact hc
      · exact hl1 e' he''

/-- The shrink loop performs exactly one render per counted iteration, and
stops only at page count 1 (or an initial count below), at the iteration
budget, or with every parameter at its limit. -/
theorem shrinkLoop_spec (oracle : StyleMap → ℕ) (strats : List ShrinkStrat) :
    ∀ (fuel : ℕ) (m : StyleMap) (pc : ℕ),
      ((shrinkLoop oracle strats fuel m pc).renders.length =
        (shrinkLoop oracle strats fuel m pc).iterations) ∧
      ((shrinkLoop oracle strats fuel m pc).pageCount ≤ 1 ∨
        (shrinkLoop oracle strats fuel m pc).iterations = fuel ∨
        applyShrinkStep strats (shrinkLoop oracle strats fuel m pc).styles = none) := by
  intro fuel
  induction fuel with
  | zero => intro m pc; exact ⟨rfl, Or.inr (Or.inl rfl)⟩
  | succ fuel ih =>
    intro m pc
    by_cases hpc : 1 < pc
    · cases hstep : applyShrinkStep strats m with
      | none =>
        have hres : shrinkLoop oracle strats (fuel + 1) m pc = ⟨m, pc, 0, []⟩ := by
          conv_lhs => unfold shrinkLoop
          rw [if_pos hpc, hstep]
        rw [hres]
        exact ⟨rfl, Or.inr (Or.inr hstep)⟩
      | some r =>
        obtain ⟨s, prev, newVal⟩ := r
        have ihm := ih (updateVar m s.cssVar newVal)
          (oracle (updateVar m s.cssVar newVal))
        have hres : shrinkLoop oracle strats (fuel + 1) m pc =
            ⟨(shrinkLoop oracle strats fuel (updateVar m s.cssVar newVal)
                (oracle (updateVar m s.cssVar newVal))).styles,
             (shrinkLoop oracle strats fuel (updateVar m s.cssVar newVal)
                (oracle (updateVar m s.cssVar newVal))).pageCount,
             (shrinkLoop oracle strats fuel (updateVar m s.cssVar newVal)
                (oracle (updateVar m s.cssVar newVal))).iterations + 1,
             updateVar m s.cssVar newVal ::
               (shrinkLoop oracle strats fuel (updateVar m s.cssVar newVal)
                 (oracle (updateVar m s.cssVar newVal))).renders⟩ := by
          conv_lhs => unfold shrinkLoop
          rw [if_pos hpc, hstep]
        rw [hres]
        refine ⟨?_, ?_⟩
        · show (updateVar m s.cssVar newVal ::
              (shrinkLoop oracle strats fuel (updateVar m s.cssVar newVal)
                (oracle (updateVar m s.cssVar newVal))).renders).length =
            (shrinkLoop oracle strats fuel (updateVar m s.cssVar newVal)
              (oracle (updateVar m s.cssVar newVal))).iterations + 1
          rw [List.length_cons, ihm.1]
        · rcases ihm.2 with h1 | h2 | h3
          · exact Or.inl h1
          · refine Or.inr (Or.inl ?_)
            show (shrinkLoop oracle strats fuel (updateVar m s.cssVar newVal)
              (oracle (updateVar m s.cssVar newVal))).iterations + 1 = fuel + 1
            omega
          · exact Or.inr (Or.inr h3)
    · have hres : shrinkLoop oracle strats (fuel + 1) m pc = ⟨m, pc, 0, []⟩ := by
        conv_lhs => unfold shrinkLoop
        rw [if_neg hpc]
      rw [hres]
      exact ⟨rfl, Or.inl (show pc ≤ 1 by omega)⟩

theorem updateVar_cancel (m : StyleMap) (v : String) (x : ℚ) :
    updateVar (updateVar m v x) v (m v) = m := by
  funext w
  unfold updateVar
  by_cases h : w = v
  · subst h; simp
  · simp [h]

/-- One overshooting expand iteration: the loop applies the step, observes
more than one page, reverts that parameter, performs a single corrective
render and stops without counting the iteration. -/
theorem expandLoop_overshoot (oracle : StyleMap → ℕ) (fill : StyleMap → ℚ)
    (strats : List ExpandStrat) (fuel : ℕ) (m : StyleMap)
    (e : ExpandStrat) (prev newVal : ℚ)
    (hfill : fill m < 17/20)
    (hstep : applyExpandStep strats m = some (e, prev, newVal))
    (hover : 1 < oracle (updateVar m e.cssVar newVal)) :
    expandLoop oracle fill strats (fuel + 1) m 1 =
      ⟨updateVar (updateVar m e.cssVar newVal) e.cssVar prev,
       oracle (updateVar (updateVar m e.cssVar newVal) e.cssVar prev),
       0,
       [updateVar m e.cssVar newVal,
        updateVar (updateVar m e.cssVar newVal) e.cssVar prev]⟩ := by
  conv_lhs => unfold expandLoop
  rw [if_pos rfl, if_pos hfill, hstep]
  show (if 1 < oracle (updateVar m e.cssVar newVal) then
      (⟨updateVar (updateVar m e.cssVar newVal) e.cssVar prev,
        oracle (updateVar (updateVar m e.cssVar newVal) e.cssVar prev),
        0,
        [updateVar m e.cssVar newVal,
         updateVar (updateVar m e.cssVar newVal) e.cssVar prev]⟩ : LoopResult)
    else
      ⟨(expandLoop oracle fill strats fuel (updateVar m e.cssVar newVal)
          (oracle (updateVar m e.cssVar newVal))).styles,
       (expandLoop oracle fill strats fuel (updateVar m e.cssVar newVal)
          (oracle (updateVar m e.cssVar newVal))).pageCount,
       (expandLoop oracle fill strats fuel (updateVar m e.cssVar newVal)
          (oracle (updateVar m e.cssVar newVal))).iterations + 1,
       updateVar m e.cssVar newVal ::
         (expandLoop oracle fill strats fuel (updateVar m e.cssVar newVal)
           (oracle (updateVar m e.cssVar newVal))).renders⟩) = _
  rw [if_pos hover]

theorem updateVar_same (m : StyleMap) (v : String) (x : ℚ) (w : String)
    (h : w = v) : updateVar m v x w = x := by
  unfold updateVar; rw [if_pos h]

theorem updateVar_other (m : StyleMap) (v : String) (x : ℚ) (w : String)
    (h : ¬ w = v) : updateVar m v x w = m w := by
  unfold updateVar; rw [if_neg h]

/-- One shrink adjustment keeps every parameter inside its bounds. -/
theorem fitStep_shrink_preserves (shrinks : List ShrinkStrat)
    (expands : List ExpandStrat) (m : StyleMap)
    (hs : ∀ s ∈ shrinks, 0 ≤ s.step ∧ round2 s.min = s.min)
    (he : ∀ e ∈ expands, round2 e.max = e.max)
    (hsc : ∀ s ∈ shrinks, ∀ s' ∈ shrinks, s.cssVar = s'.cssVar → s.min = s'.min)
    (hinv : stylesWithinBounds shrinks expands m) :
    stylesWithinBounds shrinks expands (fitStep shrinks expands .shrinkOp m) := by
  simp only [fitStep]
  cases hstep : applyShrinkStep shrinks m with
  | none => exact hinv
  | some r =>
    obtain ⟨s0, prev, nv⟩ := r
    show stylesWithinBounds shrinks expands (updateVar m s0.cssVar nv)
    obtain ⟨⟨l1, l2, hsplit, _⟩, hroom, hprev, hnv⟩ :=
      applyShrinkStep_eq_some shrinks m s0 prev nv hstep
    have hmem : s0 ∈ shrinks := by
      rw [hsplit]; exact List.mem_append_right l1 (List.mem_cons_self s0 l2)
    have hstep0 : 0 ≤ s0.step := (hs s0 hmem).1
    have hfix0 : round2 s0.min = s0.min := (hs s0 hmem).2
    have hlow : s0.min ≤ m s0.cssVar := hinv.1 s0 hmem
    have hnv_low : s0.min ≤ nv := by
      have h := round2_mono (le_max_left s0.min (m s0.cssVar - s0.step))
      rw [hfix0] at h
      rw [hnv]; exact h
    have hnv_le : nv ≤ round2 (m s0.cssVar) := by
      rw [hnv]
      exact round2_mono (max_le hlow (by linarith))
    constructor
    · intro s' hs'
      by_cases hv : s'.cssVar = s0.cssVar
      · rw [updateVar_same m s0.cssVar nv s'.cssVar hv,
          hsc s' hs' s0 hmem hv]
        exact hnv_low
      · rw [updateVar_other m s0.cssVar nv s'.cssVar hv]
        exact hinv.1 s' hs'
    · intro e he'
      by_cases hv : e.cssVar = s0.cssVar
      · have hup : m s0.cssVar ≤ e.max := by
          have h := hinv.2 e he'
          rwa [hv] at h
        have hre : round2 (m s0.cssVar) ≤ e.max := by
          have h := round2_mono hup
          rwa [he e he'] at h
        rw [updateVar_same m s0.cssVar nv e.cssVar hv]
        linarith
      · rw [updateVar_other m s0.cssVar nv e.cssVar hv]
        exact hinv.2 e he'

/-- One expand adjustment keeps every parameter inside its bounds. -/
theorem fitStep_expand_preserves (shrinks : List ShrinkStrat)
    (expands : List ExpandStrat) (m : StyleMap)
    (hs : ∀ s ∈ shrinks, round2 s.min = s.min)
    (he : ∀ e ∈ expands, 0 ≤ e.step ∧ round2 e.max = e.max)
    (hec : ∀ e ∈ expands, ∀ e' ∈ expands, e.cssVar = e'.cssVar → e.max = e'.max)
    (hinv : stylesWithinBounds shrinks expands m) :
    stylesWithinBounds shrinks expands (fitStep shrinks expands .expandOp m) := by
  simp only [fitStep]
  cases hstep : applyExpandStep expands m with
  | none => exact hinv
  | some r =>
    obtain ⟨e0, prev, nv⟩ := r
    show stylesWithinBounds shrinks expands (updateVar m e0.cssVar nv)
    obtain ⟨⟨l1, l2, hsplit, _⟩, hroom, hprev, hnv⟩ :=
      applyExpandStep_eq_some expands m e0 prev nv hstep
    have hmem : e0 ∈ expands := by
      rw [hsplit]; exact List.mem_append_right l1 (List.mem_cons_self e0 l2)
    have hstep0 : 0 ≤ e0.step := (he e0 hmem).1
    have hfix0 : round2 e0.max = e0.max := (he e0 hmem).2
    have hup : m e0.cssVar ≤ e0.max := hinv.2 e0 hmem
    have hnv_up : nv ≤ e0.max := by
      have h := round2_mono (min_le_left e0.max (m e0.cssVar + e0.step))
      rw [hfix0] at h
      rw [hnv]; exact h
    have hnv_ge : round2 (m e0.cssVar) ≤ nv := by
      rw [hnv]
      exact round2_mono (le_min hup (by linarith))
    constructor
    · intro s' hs'
      by_cases hv : s'.cssVar = e0.cssVar
      · have hlow : s'.min ≤ m e0.cssVar := by
          have h := hinv.1 s' hs'
          rwa [hv] at h
        have hre : s'.min ≤ round2 (m e0.cssVar) := by
          have h := round2_mono hlow
          rwa [hs s' hs'] at h
        rw [updateVar_same m e0.cssVar nv s'.cssVar hv]
        linarith
      · rw [updateVar_other m e0.cssVar nv s'.cssVar hv]
        exact hinv.1 s' hs'
    · intro e' he'
      by_cases hv : e'.cssVar = e0.cssVar
      · rw [updateVar_same m e0.cssVar nv e'.cssVar hv,
          hec e' he' e0 hmem hv]
        exact hnv_up
      · rw [updateVar_other m e0.cssVar nv e'.cssVar hv]
        exact hinv.2 e' he'

/-! ## Claim C1 -/

/-- C1 counterexample: with the debounced queue holding a styles task and a
content task, the fired `processQueue` hands only the content task (the
lowest priority value) to `executeRenderTask`; the styles task sits in the
queue at firing time yet is not part of what is handed over, and the queue
is nevertheless cleared — so the entire accumulated queue is not handed to
the executor as one merged request. -/
theorem c1_counterexample :
    (processQueue exProc true 0).2 = [exTask1] ∧
    exTask2 ∈ exProc.pagedjs.renderQueue ∧
    exTask2 ∉ (processQueue exProc true 0).2 ∧
    (processQueue exProc true 0).1.pagedjs.renderQueue = [] := by
  decide

/-- C1 (amended): when the debounce timer fires with no pass processing or
rendering and a non-empty queue, the processor hands exactly one task to the
Render Executor — a task of minimal priority value from the queue — never
replaying tasks one-by-one; on success the whole queue is cleared (the
remaining tasks are discarded), while on failure the queue is left unchanged
and the error is recorded. -/
theorem c1_process_queue_single (st : ProcState) (execOk : Bool) (now : ℤ)
    (hproc : st.isProcessing = false)
    (hrend : st.pagedjs.isRendering = false)
    (hne : st.pagedjs.renderQueue ≠ []) :
    ∃ t, (processQueue st execOk now).2 = [t] ∧
      t ∈ st.pagedjs.renderQueue ∧
      (∀ u ∈ st.pagedjs.renderQueue, t.priority ≤ u.priority) ∧
      (execOk = true →
        (processQueue st execOk now).1.pagedjs.renderQueue = [] ∧
        (processQueue st execOk now).1.pagedjs.error = none) ∧
      (execOk = false →
        (processQueue st execOk now).1.pagedjs.renderQueue =
          st.pagedjs.renderQueue ∧
        (processQueue st execOk now).1.pagedjs.error = some "render failed") ∧
      (processQueue st execOk now).1.pagedjs.isRendering = false := by
  have hguard : ¬(st.isProcessing = true ∨ st.pagedjs.isRendering = true ∨
      st.pagedjs.renderQueue.isEmpty = true) := by
    simp [hproc, hrend, hne]
  unfold processQueue
  rw [if_neg hguard]
  cases hsort : sortTasks st.pagedjs.renderQueue with
  | nil => exact absurd (sortTasks_eq_nil _ hsort) hne
  | cons t rest =>
    have hmem : t ∈ st.pagedjs.renderQueue :=
      (mem_sortTasks t _).mp (by rw [hsort]; exact List.mem_cons_self t rest)
    have hmin := sortTasks_head_min st.pagedjs.renderQueue t rest hsort
    cases execOk with
    | true =>
      exact ⟨t, rfl, hmem, hmin, fun _ => ⟨rfl, rfl⟩,
        fun hf => absurd hf (by simp), rfl⟩
    | false =>
      exact ⟨t, rfl, hmem, hmin, fun ht => absurd ht (by simp),
        fun _ => ⟨rfl, rfl⟩, rfl⟩

/-- C1 witness: the amended behaviour at the concrete two-task queue. -/
theorem c1_witness :
    exProc.isProcessing = false ∧
    exProc.pagedjs.renderQueue ≠ [] ∧
    ∃ t, (processQueue exProc true 0).2 = [t] ∧
      t ∈ exProc.pagedjs.renderQueue ∧
      (∀ u ∈ exProc.pagedjs.renderQueue, t.priority ≤ u.priority) ∧
      (true = true →
        (processQueue exProc true 0).1.pagedjs.renderQueue = [] ∧
        (processQueue exProc true 0).1.pagedjs.error = none) ∧
      (true = false →
        (processQueue exProc true 0).1.pagedjs.renderQueue =
          exProc.pagedjs.renderQueue ∧
        (processQueue exProc true 0).1.pagedjs.error = some "render failed") ∧
      (processQueue exProc true 0).1.pagedjs.isRendering = false :=
  ⟨by decide, by decide,
    c1_process_queue_single exProc true 0 (by decide) (by decide) (by decide)⟩

/-! ## Claim C2 -/

/-- C2: while a pass is in flight, any further render calls never start a
second pass; each such request overwrites the single pending slot with the
latest merged snapshot; when the in-flight pass completes, the pending
request is replayed exactly once — the replay starts a pass with exactly
that latest snapshot, the slot is emptied, and the replayed pass's own
completion finds nothing further to retry. -/
theorem c2_mutual_exclusion (s : RState) (e1 e2 : Styles) (doc doc' : Doc)
    (out1 out2 : Option String) (hbusy : s.isRendering = true) :
    (renderBegin s e1).started = none ∧
    (renderBegin (renderBegin s e1).st e2).started = none ∧
    (renderBegin (renderBegin s e1).st e2).st.pendingRenderRequest =
      some (mergeStyles (mergeStyles s.currentStyles e1) e2) ∧
    (renderFinish (renderBegin (renderBegin s e1).st e2).st doc out1).retry =
      some (mergeStyles (mergeStyles s.currentStyles e1) e2) ∧
    (renderFinish (renderBegin (renderBegin s e1).st e2).st doc out1).st.pendingRenderRequest
      = none ∧
    (renderFinish (renderBegin (renderBegin s e1).st e2).st doc out1).st.isRendering
      = false ∧
    (renderBegin
        (renderFinish (renderBegin (renderBegin s e1).st e2).st doc out1).st
        (mergeStyles (mergeStyles s.currentStyles e1) e2)).started =
      some (mergeStyles (mergeStyles s.currentStyles e1) e2) ∧
    (renderFinish
        (renderBegin
          (renderFinish (renderBegin (renderBegin s e1).st e2).st doc out1).st
          (mergeStyles (mergeStyles s.currentStyles e1) e2)).st
        doc' out2).retry = none := by
  have hb1 : renderBegin s e1 =
      { st :=
          { s with
            currentStyles := mergeStyles s.currentStyles e1,
            pendingRenderRequest := some (mergeStyles s.currentStyles e1) },
        started := none,
        emitted := [] } := by
    unfold renderBegin
    rw [if_pos hbusy]
  rw [hb1]
  have hb2 : renderBegin
      ({ s with
         currentStyles := mergeStyles s.currentStyles e1,
         pendingRenderRequest := some (mergeStyles s.currentStyles e1) } : RState) e2 =
      { st :=
          { s with
            currentStyles := mergeStyles (mergeStyles s.currentStyles e1) e2,
            pendingRenderRequest :=
              some (mergeStyles (mergeStyles s.currentStyles e1) e2) },
        started := none,
        emitted := [] } := by
    unfold renderBegin
    rw [if_pos hbusy]
  rw [hb2]
  refine ⟨rfl, rfl, rfl, ?_⟩
  have hfin : renderFinish
      ({ s with
         currentStyles := mergeStyles (mergeStyles s.currentStyles e1) e2,
         pendingRenderRequest :=
           some (mergeStyles (mergeStyles s.currentStyles e1) e2) } : RState)
      doc out1 =
      { st :=
          { s with
            currentStyles := mergeStyles (mergeStyles s.currentStyles e1) e2,
            pendingRenderRequest := none,
            isRendering := false },
        doc := (renderFinish
          ({ s with
             currentStyles := mergeStyles (mergeStyles s.currentStyles e1) e2,
             pendingRenderRequest :=
               some (mergeStyles (mergeStyles s.currentStyles e1) e2) } : RState)
          doc out1).doc,
        report := (renderFinish
          ({ s with
             currentStyles := mergeStyles (mergeStyles s.currentStyles e1) e2,
             pendingRenderRequest :=
               some (mergeStyles (mergeStyles s.currentStyles e1) e2) } : RState)
          doc out1).report,
        retry := some (mergeStyles (mergeStyles s.currentStyles e1) e2) } := by
    cases out1 <;> rfl
  rw [hfin]
  refine ⟨rfl, rfl, rfl, ?_⟩
  have hb3 : renderBegin
      ({ s with
         currentStyles := mergeStyles (mergeStyles s.currentStyles e1) e2,
         pendingRenderRequest := none,
         isRendering := false } : RState)
      (mergeStyles (mergeStyles s.currentStyles e1) e2) =
      { st :=
          { s with
            currentStyles := mergeStyles (mergeStyles s.currentStyles e1) e2,
            pendingRenderRequest := none,
            isRendering := true },
        started := some (mergeStyles (mergeStyles s.currentStyles e1) e2),
        emitted := [.rendering] } := by
    unfold renderBegin
    rw [if_neg (by simp)]
    rw [mergeStyles_self]
  rw [hb3]
  refine ⟨rfl, ?_⟩
  cases out2 <;> rfl

/-- C2 witness: the mutual-exclusion behaviour at a concrete busy renderer
with two concrete queued style requests. -/
theorem c2_witness :
    exRStateBusy.isRendering = true ∧
    (renderBegin exRStateBusy exStylesFont).started = none ∧
    (renderBegin (renderBegin exRStateBusy exStylesFont).st exStylesMargin).st.pendingRenderRequest
      = some (mergeStyles (mergeStyles exRStateBusy.currentStyles exStylesFont)
          exStylesMargin) ∧
    (renderFinish
        (renderBegin (renderBegin exRStateBusy exStylesFont).st exStylesMargin).st
        exDoc (some "<paged>")).retry =
      some (mergeStyles (mergeStyles exRStateBusy.currentStyles exStylesFont)
        exStylesMargin) := by
  have h := c2_mutual_exclusion exRStateBusy exStylesFont exStylesMargin
    exDoc exDoc (some "<paged>") none rfl
  exact ⟨rfl, h.1, h.2.2.1, h.2.2.2.1⟩

/-! ## Claim C3 -/

/-- C3: the render context posts `READY` on every interval firing until it
receives `ACK` and none afterwards; every command the host sends before the
handshake completes is buffered without being posted, and `handleViewerReady`
then posts the `ACK` followed by exactly the buffered commands in their
original arrival order, emptying the buffer. -/
theorem c3_handshake (r : RendererHS) (h : HostState) (cmds : List String)
    (hactive : r.handshakeActive = true) (hnotready : h.isIframeReady = false) :
    handshakeTick r = [MsgType.ready] ∧
    handshakeTick (rendererOnAck r) = [] ∧
    (rendererOnAck r).isHandshakeComplete = true ∧
    (sendAll h cmds).1.messageQueue = h.messageQueue ++ cmds ∧
    (sendAll h cmds).2 = [] ∧
    handleViewerReady (sendAll h cmds).1 =
      ({ isIframeReady := true, messageQueue := [] },
       HostPost.ack :: (h.messageQueue ++ cmds).map HostPost.cmd) := by
  have hsend : ∀ (h' : HostState), h'.isIframeReady = false →
      (sendAll h' cmds).1 =
        ({ isIframeReady := false,
           messageQueue := h'.messageQueue ++ cmds } : HostState) ∧
      (sendAll h' cmds).2 = [] := by
    induction cmds with
    | nil => intro h' hh; cases h' with
      | mk ready q => simp at hh; subst hh; exact ⟨by simp [sendAll], rfl⟩
    | cons c cs ih =>
      intro h' hh
      have hstep : sendMessageToIframe h' c =
          ({ h' with messageQueue := h'.messageQueue ++ [c] }, []) := by
        unfold sendMessageToIframe
        rw [if_neg (by simp [hh])]
      have hh2 : ({ h' with messageQueue := h'.messageQueue ++ [c] } : HostState).isIframeReady = false := hh
      obtain ⟨ih1, ih2⟩ := ih { h' with messageQueue := h'.messageQueue ++ [c] } hh2
      constructor
      · show (sendAll h' (c :: cs)).1 = _
        unfold sendAll
        rw [hstep]
        simp only at ih1 ⊢
        rw [ih1]
        simp [List.append_assoc]
      · show (sendAll h' (c :: cs)).2 = []
        unfold sendAll
        rw [hstep]
        simp only at ih2 ⊢
        rw [ih2]
        simp
  obtain ⟨hq, hp⟩ := hsend h hnotready
  refine ⟨?_, rfl, rfl, ?_, hp, ?_⟩
  · unfold handshakeTick
    rw [if_pos hactive]
  · rw [hq]
  · rw [hq]
    rfl

/-- C3 witness: a fresh host buffering two commands, then completing the
handshake. -/
theorem c3_witness :
    exRendererHS.handshakeActive = true ∧
    exHostFresh.isIframeReady = false ∧
    handshakeTick (rendererOnAck exRendererHS) = [] ∧
    handleViewerReady (sendAll exHostFresh ["SET_CONTENT", "UPDATE_STYLES"]).1 =
      ({ isIframeReady := true, messageQueue := [] },
       [HostPost.ack, HostPost.cmd "SET_CONTENT", HostPost.cmd "UPDATE_STYLES"]) := by
  have h := c3_handshake exRendererHS exHostFresh ["SET_CONTENT", "UPDATE_STYLES"]
    rfl rfl
  exact ⟨rfl, rfl, h.2.1, h.2.2.2.2.2⟩

/-! ## Claim C4 -/

/-- C4 counterexample: when the oracle invocation throws inside a concrete
render pass, `handlePagedRender` does not re-throw — the call resolves
normally — and nothing is posted at all, so no error reaches render-status
state; this contradicts the claimed record-and-re-throw behaviour. -/
theorem c4_counterexample :
    (renderFinish (renderBegin exRStateIdle exStylesEmpty).st exDoc none).report.threw
      = false ∧
    MsgType.errorMsg ∉
      (renderFinish (renderBegin exRStateIdle exStylesEmpty).st exDoc none).report.emitted ∧
    (renderFinish (renderBegin exRStateIdle exStylesEmpty).st exDoc none).report.emitted
      = [] := by
  exact ⟨rfl, by decide, rfl⟩

/-- C4 (amended): if the oracle invocation throws, the executor rolls the
document back to the content baseline and head and logs the error to the
console, but records nothing in state, posts no message (in particular no
error and no `rendered`), and swallows the exception instead of re-throwing
it; the in-flight lock is always released in the `finally` step, which then
hands back whatever request was pending. -/
theorem c4_render_failure (s : RState) (extra : Styles) (doc : Doc)
    (hidle : s.isRendering = false) :
    (renderBegin s extra).started = some (mergeStyles s.currentStyles extra) ∧
    (renderFinish (renderBegin s extra).st doc none).doc.body = s.originalBody ∧
    (renderFinish (renderBegin s extra).st doc none).doc.head = s.originalHead ∧
    (renderFinish (renderBegin s extra).st doc none).report.threw = false ∧
    (renderFinish (renderBegin s extra).st doc none).report.errorLogged = true ∧
    (renderFinish (renderBegin s extra).st doc none).report.emitted = [] ∧
    (renderFinish (renderBegin s extra).st doc none).st.isRendering = false ∧
    (renderFinish (renderBegin s extra).st doc none).retry = s.pendingRenderRequest := by
  cases s with
  | mk ob oh ir pend cs =>
    simp only at hidle
    subst hidle
    cases pend with
    | none => exact ⟨rfl, rfl, rfl, rfl, rfl, rfl, rfl, rfl⟩
    | some p => exact ⟨rfl, rfl, rfl, rfl, rfl, rfl, rfl, rfl⟩

/-- C4 witness: the amended failure behaviour at a concrete idle renderer. -/
theorem c4_witness :
    exRStateIdle.isRendering = false ∧
    (renderFinish (renderBegin exRStateIdle exStylesFont).st exDoc none).doc.body
      = exRStateIdle.originalBody ∧
    (renderFinish (renderBegin exRStateIdle exStylesFont).st exDoc none).st.isRendering
      = false := by
  have h := c4_render_failure exRStateIdle exStylesFont exDoc rfl
  exact ⟨rfl, h.2.1, h.2.2.2.2.2.2.1⟩

/-! ## Claim C5 -/

/-- C5: with the Paged.js elements present, the direction chosen after the
initial measured pass is `shrink` exactly when the page count exceeds one,
`expand` exactly when the page count is one and the raw fill quotient is
below 0.85, and `none` otherwise. -/
theorem c5_direction_selection (pc : ℕ) (d : FillDom)
    (h1 : d.hasPageContent = true) (h2 : d.hasPageBox = true) :
    (fitDirection pc (checkContentFill d).1 = Direction.shrink ↔ 1 < pc) ∧
    (fitDirection pc (checkContentFill d).1 = Direction.expand ↔
      (pc = 1 ∧ contentFillFrac d < 17/20)) ∧
    ((¬ 1 < pc) → ¬(pc = 1 ∧ contentFillFrac d < 17/20) →
      fitDirection pc (checkContentFill d).1 = Direction.noneDir) := by
  have hcf : (checkContentFill d).1 = decide (contentFillFrac d < 17/20) := by
    simp [checkContentFill, h1, h2]
  rw [hcf]
  unfold fitDirection
  by_cases hgt : 1 < pc
  · rw [if_pos hgt]
    refine ⟨⟨fun _ => hgt, fun _ => rfl⟩, ⟨fun hc => absurd hc (by decide), ?_⟩, ?_⟩
    · rintro ⟨hpc1, _⟩; omega
    · intro hn _; exact absurd hgt hn
  · rw [if_neg hgt]
    by_cases hpc1 : pc = 1
    · by_cases hfr : contentFillFrac d < 17/20
      · rw [if_pos ⟨hpc1, by simp [hfr]⟩]
        exact ⟨⟨fun hc => absurd hc (by decide), fun hg => absurd hg hgt⟩,
          ⟨fun _ => ⟨hpc1, hfr⟩, fun _ => rfl⟩,
          fun _ hn => absurd ⟨hpc1, hfr⟩ hn⟩
      · rw [if_neg (by simp [hfr])]
        exact ⟨⟨fun hc => absurd hc (by decide), fun hg => absurd hg hgt⟩,
          ⟨fun hc => absurd hc (by decide),
            fun hb => absurd hb.2 hfr⟩,
          fun _ _ => rfl⟩
    · rw [if_neg (by simp [hpc1])]
      exact ⟨⟨fun hc => absurd hc (by decide), fun hg => absurd hg hgt⟩,
        ⟨fun hc => absurd hc (by decide), fun hb => absurd hb.1 hpc1⟩,
        fun _ _ => rfl⟩

/-- C5 witness: a single sparse page (fill 40%) selects `expand`. -/
theorem c5_witness :
    exFillDom.hasPageContent = true ∧
    (fitDirection 1 (checkContentFill exFillDom).1 = Direction.expand ↔
      ((1 : ℕ) = 1 ∧ contentFillFrac exFillDom < 17/20)) := by
  have h := c5_direction_selection 1 exFillDom rfl rfl
  exact ⟨rfl, h.2.1⟩

/-- A rational with at most two decimal places is a fixed point of `round2`. -/
theorem round2_eq_self (q : ℚ) (n : ℤ) (h : q * 100 = (n : ℚ)) : round2 q = q := by
  unfold round2
  rw [h, round_intCast]
  have h100 : (100 : ℚ) ≠ 0 := by norm_num
  field_simp
  linarith

/-- Evaluation of the shrink step at the concrete map with the page margin
at 7.5mm: the page margin is selected and clamped to its 7mm minimum. -/
theorem applyShrink_at_exShrinkMap :
    applyShrinkStep shrinkStrategies exShrinkMap =
      some (⟨"pageMargin", "--page-margin", 1, "mm", 7⟩, 15/2, 7) := by
  have hval : exShrinkMap "--page-margin" = 15/2 := by
    simp [exShrinkMap]
  have hcond : (⟨"pageMargin", "--page-margin", 1, "mm", 7⟩ : ShrinkStrat).min
      + 1/1000 < exShrinkMap "--page-margin" := by
    rw [hval]; norm_num
  show applyShrinkStep
      ((⟨"pageMargin", "--page-margin", 1, "mm", 7⟩ : ShrinkStrat) ::
        shrinkStrategies.tail) exShrinkMap = _
  unfold applyShrinkStep
  rw [if_pos hcond, hval]
  dsimp only
  rw [show ((7:ℚ) ⊔ (15/2 - 1)) = 7 by norm_num,
    round2_eq_self 7 700 (by norm_num)]

/-- Evaluation of the expand step at the default styles: the font size is
selected and stepped from 9pt to 9.5pt. -/
theorem applyExpand_at_default :
    applyExpandStep expandStrategies defaultStyleMap =
      some (⟨"fontSize", "--body-font-size", 1/2, "pt", 13⟩, 9, 19/2) := by
  have hval : defaultStyleMap "--body-font-size" = 9 := by
    simp [defaultStyleMap]
  have hcond : defaultStyleMap "--body-font-size" <
      (⟨"fontSize", "--body-font-size", 1/2, "pt", 13⟩ : ExpandStrat).max - 1/1000 := by
    rw [hval]; norm_num
  show applyExpandStep
      ((⟨"fontSize", "--body-font-size", 1/2, "pt", 13⟩ : ExpandStrat) ::
        expandStrategies.tail) defaultStyleMap = _
  unfold applyExpandStep
  rw [if_pos hcond, hval]
  dsimp only
  rw [show ((13:ℚ) ⊓ (9 + 1/2)) = 19/2 by norm_num,
    round2_eq_self (19/2) 950 (by norm_num)]

/-! ## Claim C6 -/

/-- C6 counterexample: with the page margin at 7.5mm (step 1mm, minimum 7mm)
and the body-block spacing at 0.3em (step 0.1em, minimum 0), the shrink step
selects the page margin although its value minus its step, 6.5mm, falls
below the 7mm minimum — while the body-block spacing does satisfy the
claimed "value minus step stays at or above the minimum" rule — and the
value written is the clamped 7mm, not the full-step 6.5mm. -/
theorem c6_counterexample :
    (applyShrinkStep shrinkStrategies exShrinkMap).map (fun r => r.1.name)
      = some "pageMargin" ∧
    exShrinkMap "--page-margin" - 1 < 7 ∧
    (0 : ℚ) ≤ exShrinkMap "--body-margin" - 1/10 ∧
    (applyShrinkStep shrinkStrategies exShrinkMap).map (fun r => r.2.2)
      = some 7 ∧
    exShrinkMap "--page-margin" - 1 ≠ 7 := by
  refine ⟨?_, ?_, ?_, ?_, ?_⟩
  · rw [applyShrink_at_exShrinkMap]; rfl
  · have h : exShrinkMap "--page-margin" = 15/2 := by simp [exShrinkMap]
    rw [h]; norm_num
  · have h : exShrinkMap "--body-margin" = 3/10 := by simp [exShrinkMap]
    rw [h]; norm_num
  · rw [applyShrink_at_exShrinkMap]; rfl
  · have h : exShrinkMap "--page-margin" = 15/2 := by simp [exShrinkMap]
    rw [h]; norm_num

/-- C6 (amended): each shrink iteration (up to the ceiling of 25) selects
the first parameter in the shrink order whose current value exceeds its
bound minimum by more than 0.001, decreases it by its step clamped at the
minimum (the result rounded to two decimals), re-renders exactly once per
counted iteration, and re-reads the page count; the loop stops when the page
count reaches 1, when the iteration budget is exhausted, or when no
parameter in the list exceeds its minimum by more than 0.001. -/
theorem c6_shrink_selection_and_loop :
    fitMaxIterations = 25 ∧
    (∀ (strats : List ShrinkStrat) (m : StyleMap),
      (applyShrinkStep strats m = none ↔
        ∀ s ∈ strats, ¬ (s.min + 1/1000 < m s.cssVar))) ∧
    (∀ (strats : List ShrinkStrat) (m : StyleMap) (s : ShrinkStrat)
        (prev newVal : ℚ),
      applyShrinkStep strats m = some (s, prev, newVal) →
        ((∃ l1 l2, strats = l1 ++ s :: l2 ∧
            ∀ s' ∈ l1, ¬ (s'.min + 1/1000 < m s'.cssVar)) ∧
          s.min + 1/1000 < m s.cssVar ∧
          prev = m s.cssVar ∧
          newVal = round2 (max s.min (m s.cssVar - s.step)))) ∧
    (∀ (oracle : StyleMap → ℕ) (strats : List ShrinkStrat) (fuel : ℕ)
        (m : StyleMap) (pc : ℕ),
      ((shrinkLoop oracle strats fuel m pc).renders.length =
        (shrinkLoop oracle strats fuel m pc).iterations) ∧
      ((shrinkLoop oracle strats fuel m pc).pageCount ≤ 1 ∨
        (shrinkLoop oracle strats fuel m pc).iterations = fuel ∨
        applyShrinkStep strats (shrinkLoop oracle strats fuel m pc).styles = none)) :=
  ⟨rfl, applyShrinkStep_eq_none_iff,
    fun strats m s prev newVal h => applyShrinkStep_eq_some strats m s prev newVal h,
    fun oracle strats fuel m pc => shrinkLoop_spec oracle strats fuel m pc⟩

/-- C6 witness: the amended selection rule evaluated at the concrete map
with the page margin half a step above its minimum. -/
theorem c6_witness :
    applyShrinkStep shrinkStrategies exShrinkMap =
      some (⟨"pageMargin", "--page-margin", 1, "mm", 7⟩, 15/2, 7) ∧
    ((∃ l1 l2, shrinkStrategies =
        l1 ++ (⟨"pageMargin", "--page-margin", 1, "mm", 7⟩ : ShrinkStrat) :: l2 ∧
        ∀ s' ∈ l1, ¬ (s'.min + 1/1000 < exShrinkMap s'.cssVar)) ∧
      (⟨"pageMargin", "--page-margin", 1, "mm", 7⟩ : ShrinkStrat).min + 1/1000 <
        exShrinkMap (⟨"pageMargin", "--page-margin", 1, "mm", 7⟩ : ShrinkStrat).cssVar ∧
      (15/2 : ℚ) = exShrinkMap (⟨"pageMargin", "--page-margin", 1, "mm", 7⟩ : ShrinkStrat).cssVar ∧
      (7 : ℚ) = round2 (max
        (⟨"pageMargin", "--page-margin", 1, "mm", 7⟩ : ShrinkStrat).min
        (exShrinkMap (⟨"pageMargin", "--page-margin", 1, "mm", 7⟩ : ShrinkStrat).cssVar -
          (⟨"pageMargin", "--page-margin", 1, "mm", 7⟩ : ShrinkStrat).step))) :=
  ⟨applyShrink_at_exShrinkMap,
    c6_shrink_selection_and_loop.2.2.1 shrinkStrategies exShrinkMap
      ⟨"pageMargin", "--page-margin", 1, "mm", 7⟩ (15/2) 7 applyShrink_at_exShrinkMap⟩

/-! ## Claim C7 -/

/-- C7: if, with the document on one page (as the oracle measures the
current snapshot) and the fill below 0.85, the selected expand step
overshoots to more than one page, then the loop reverts exactly that one
parameter to its pre-overshoot value — the resulting snapshot equals the
pre-step snapshot on every variable — performs exactly one corrective
render, and terminates with page count 1 and the pre-overshoot values,
counting no further iterations. -/
theorem c7_expand_overshoot_rollback (oracle : StyleMap → ℕ)
    (fill : StyleMap → ℚ) (strats : List ExpandStrat) (fuel : ℕ)
    (m : StyleMap) (e : ExpandStrat) (prev newVal : ℚ)
    (hfill : fill m < 17/20)
    (hstep : applyExpandStep strats m = some (e, prev, newVal))
    (hover : 1 < oracle (updateVar m e.cssVar newVal))
    (hpre : oracle m = 1) :
    expandLoop oracle fill strats (fuel + 1) m 1 =
      ⟨m, 1, 0, [updateVar m e.cssVar newVal, m]⟩ := by
  have h := expandLoop_overshoot oracle fill strats fuel m e prev newVal
    hfill hstep hover
  obtain ⟨_, _, hprev, _⟩ := applyExpandStep_eq_some strats m e prev newVal hstep
  rw [hprev] at h
  rw [updateVar_cancel] at h
  rw [hpre] at h
  exact h

/-- C7 witness: at the default styles with a sparse page, expanding the font
from 9pt to 9.5pt overshoots under the concrete oracle, and the loop ends
with the font reverted, page count 1, and one corrective render. -/
theorem c7_witness :
    exFill defaultStyleMap < 17/20 ∧
    exOracle defaultStyleMap = 1 ∧
    1 < exOracle (updateVar defaultStyleMap "--body-font-size" (19/2)) ∧
    expandLoop exOracle exFill expandStrategies (24 + 1) defaultStyleMap 1 =
      ⟨defaultStyleMap, 1, 0,
       [updateVar defaultStyleMap "--body-font-size" (19/2), defaultStyleMap]⟩ := by
  have hfill : exFill defaultStyleMap < 17/20 := by norm_num [exFill]
  have hpre : exOracle defaultStyleMap = 1 := by
    have h : defaultStyleMap "--body-font-size" = 9 := by simp [defaultStyleMap]
    simp [exOracle, h]
  have hover : 1 < exOracle (updateVar defaultStyleMap "--body-font-size" (19/2)) := by
    have h : updateVar defaultStyleMap "--body-font-size" (19/2) "--body-font-size"
        = 19/2 := by simp [updateVar]
    simp [exOracle, h]
    norm_num
  exact ⟨hfill, hpre, hover,
    c7_expand_overshoot_rollback exOracle exFill expandStrategies 24
      defaultStyleMap ⟨"fontSize", "--body-font-size", 1/2, "pt", 13⟩ 9 (19/2)
      hfill applyExpand_at_default hover hpre⟩

/-! ## Claim C8 -/

/-- C8: for strategy lists whose steps are non-negative, whose bounds are
exact two-decimal values, and whose per-variable bounds are consistent,
every sequence of shrink / expand apply-delta operations keeps every style
parameter within its `[min, max]` bounds. -/
theorem c8_bounds_invariant (shrinks : List ShrinkStrat)
    (expands : List ExpandStrat)
    (hs : ∀ s ∈ shrinks, 0 ≤ s.step ∧ round2 s.min = s.min)
    (he : ∀ e ∈ expands, 0 ≤ e.step ∧ round2 e.max = e.max)
    (hsc : ∀ s ∈ shrinks, ∀ s' ∈ shrinks, s.cssVar = s'.cssVar → s.min = s'.min)
    (hec : ∀ e ∈ expands, ∀ e' ∈ expands, e.cssVar = e'.cssVar → e.max = e'.max) :
    ∀ (ops : List FitOp) (m : StyleMap),
      stylesWithinBounds shrinks expands m →
      stylesWithinBounds shrinks expands (runFit shrinks expands ops m) := by
  intro ops
  induction ops with
  | nil => intro m hm; exact hm
  | cons op rest ih =>
    intro m hm
    have hone : stylesWithinBounds shrinks expands (fitStep shrinks expands op m) := by
      cases op with
      | shrinkOp =>
        exact fitStep_shrink_preserves shrinks expands m hs
          (fun e he' => (he e he').2) hsc hm
      | expandOp =>
        exact fitStep_expand_preserves shrinks expands m
          (fun s hs' => (hs s hs').2) he hec hm
    exact ih (fitStep shrinks expands op m) hone

/-- C8 witness: the invariant holds for the concrete strategy lists and the
default style values across a concrete burst of four adjustments. -/
theorem c8_witness :
    stylesWithinBounds shrinkStrategies expandStrategies defaultStyleMap ∧
    stylesWithinBounds shrinkStrategies expandStrategies
      (runFit shrinkStrategies expandStrategies exOps defaultStyleMap) := by
  have r0 : round2 (0:ℚ) = 0 := round2_eq_self 0 0 (by norm_num)
  have r1 : round2 (1:ℚ) = 1 := round2_eq_self 1 100 (by norm_num)
  have r7 : round2 (7:ℚ) = 7 := round2_eq_self 7 700 (by norm_num)
  have r9 : round2 (9:ℚ) = 9 := round2_eq_self 9 900 (by norm_num)
  have r13 : round2 (13:ℚ) = 13 := round2_eq_self 13 1300 (by norm_num)
  have r21 : round2 (21:ℚ) = 21 := round2_eq_self 21 2100 (by norm_num)
  have rhalf : round2 ((1:ℚ)/2) = 1/2 := round2_eq_self (1/2) 50 (by norm_num)
  have r1710 : round2 ((17:ℚ)/10) = 17/10 := round2_eq_self (17/10) 170 (by norm_num)
  have hs : ∀ s ∈ shrinkStrategies, 0 ≤ s.step ∧ round2 s.min = s.min := by
    simp only [shrinkStrategies, List.forall_mem_cons, List.forall_mem_nil]
    norm_num [r0, r1, r7, r9]
  have he : ∀ e ∈ expandStrategies, 0 ≤ e.step ∧ round2 e.max = e.max := by
    simp only [expandStrategies, List.forall_mem_cons, List.forall_mem_nil]
    norm_num [r13, r21, rhalf, r1710]
  have hsc : ∀ s ∈ shrinkStrategies, ∀ s' ∈ shrinkStrategies,
      s.cssVar = s'.cssVar → s.min = s'.min := by
    simp only [shrinkStrategies, List.forall_mem_cons, List.forall_mem_nil]
    norm_num
    decide
  have hec : ∀ e ∈ expandStrategies, ∀ e' ∈ expandStrategies,
      e.cssVar = e'.cssVar → e.max = e'.max := by
    simp only [expandStrategies, List.forall_mem_cons, List.forall_mem_nil]
    norm_num
    decide
  have hinit : stylesWithinBounds shrinkStrategies expandStrategies defaultStyleMap := by
    constructor
    · simp only [shrinkStrategies, List.forall_mem_cons, List.forall_mem_nil]
      simp [defaultStyleMap]
      try norm_num
    · simp only [expandStrategies, List.forall_mem_cons, List.forall_mem_nil]
      simp [defaultStyleMap]
      try norm_num
  exact ⟨hinit, c8_bounds_invariant shrinkStrategies expandStrategies
    hs he hsc hec exOps defaultStyleMap hinit⟩

/-! ## Claim C9 -/

/-- C9 counterexample: at a store with subscribers under the topics
`content`, `styles` and `render-status`, dispatching a styles update
notifies all three — including the `content` subscriber — so the store does
not notify only the subscribers registered under a matching topic; the
`styles` subscriber throws and is caught, and the `render-status` subscriber
still runs after it. -/
theorem c9_counterexample :
    (dispatchSM exManager exActionStyles exNow).2.2 =
      [("content", 1, false), ("styles", 2, true), ("render-status", 3, false)] := by
  rfl

/-- C9 (amended): on every dispatch the store notifies every subscriber
registered under every topic (the topic key scopes subscription bookkeeping
only, not delivery); each callback is invoked inside its own try/catch, so a
thrown exception is caught and logged and every registered callback is still
attempted — the attempt log has exactly one entry per registered callback,
whatever the throw flags of the others. -/
theorem c9_notify_all_and_isolated (st : ManagerState) (a : ActionV) (now : Value) :
    (dispatchSM st a now).2.2 = notifyAttempts st.listeners ∧
    (notifyAttempts st.listeners).length =
      (st.listeners.map (fun p => p.2.length)).sum ∧
    (∀ k cbs, (k, cbs) ∈ st.listeners → ∀ cb ∈ cbs,
      (k, cb.id, cb.throws) ∈ (dispatchSM st a now).2.2) :=
  ⟨rfl, length_notifyAttempts st.listeners,
    fun k cbs hk cb hcb => mem_notifyAttempts st.listeners k cbs cb hk hcb⟩

/-- C9 witness: at the concrete store, the theorem delivers membership of
the pre- and post-throw subscribers in one dispatch's attempt log. -/
theorem c9_witness :
    ("content", [(⟨1, false⟩ : Callback)]) ∈ exManager.listeners ∧
    ("content", 1, false) ∈ (dispatchSM exManager exActionStyles exNow).2.2 ∧
    ("render-status", 3, false) ∈ (dispatchSM exManager exActionStyles exNow).2.2 := by
  have h := c9_notify_all_and_isolated exManager exActionStyles exNow
  refine ⟨by decide, ?_, ?_⟩
  · exact h.2.2 "content" [⟨1, false⟩] (by decide) ⟨1, false⟩ (by decide)
  · exact h.2.2 "render-status" [⟨3, false⟩] (by decide) ⟨3, false⟩ (by decide)

/-! ## Claim C10 -/

/-- C10: dispatching an action whose (middleware-processed) type matches none
of the reducer's eight cases leaves the store state unchanged, still appends
exactly one history entry (whose old and new state snapshots both equal the
prior state) under the 50-entry trim, and still notifies the subscribers —
every registered callback is attempted. -/
theorem c10_unknown_action_dispatch (st : ManagerState) (a : ActionV) (now : Value)
    (h : (applyMiddleware st.middleware a st.state).type ∉
      (["SET_CONTENT", "SET_STYLES", "UPDATE_STYLES", "SET_LOADING_STATE",
        "SET_CURRENT_FILE", "PAGEDJS_STATE_CHANGE", "UI_STATE_CHANGE",
        "RESET_STATE"] : List String)) :
    (dispatchSM st a now).1.state = st.state ∧
    (dispatchSM st a now).1.history =
      trimHistory (st.history ++
        [⟨applyMiddleware st.middleware a st.state, st.state, st.state⟩]) ∧
    (dispatchSM st a now).2.2 = notifyAttempts st.listeners ∧
    (∀ k cbs, (k, cbs) ∈ st.listeners → ∀ cb ∈ cbs,
      (k, cb.id, cb.throws) ∈ (dispatchSM st a now).2.2) := by
  have hred : reducer st.state (applyMiddleware st.middleware a st.state) now
      = st.state := reducer_of_unknown_type st.state _ now h
  refine ⟨?_, ?_, rfl, fun k cbs hk cb hcb => mem_notifyAttempts st.listeners k cbs cb hk hcb⟩
  · show reducer st.state (applyMiddleware st.middleware a st.state) now = st.state
    exact hred
  · show trimHistory (st.history ++
        [⟨applyMiddleware st.middleware a st.state, st.state,
          reducer st.state (applyMiddleware st.middleware a st.state) now⟩]) = _
    rw [hred]

/-- C10 witness: a `BOGUS_ACTION` dispatch at the concrete store. -/
theorem c10_witness :
    ((applyMiddleware exManager.middleware exActionUnknown exManager.state).type ∉
      (["SET_CONTENT", "SET_STYLES", "UPDATE_STYLES", "SET_LOADING_STATE",
        "SET_CURRENT_FILE", "PAGEDJS_STATE_CHANGE", "UI_STATE_CHANGE",
        "RESET_STATE"] : List String)) ∧
    (dispatchSM exManager exActionUnknown exNow).1.state = exManager.state ∧
    (dispatchSM exManager exActionUnknown exNow).2.2 =
      notifyAttempts exManager.listeners := by
  have hnot : (applyMiddleware exManager.middleware exActionUnknown
      exManager.state).type ∉
      (["SET_CONTENT", "SET_STYLES", "UPDATE_STYLES", "SET_LOADING_STATE",
        "SET_CURRENT_FILE", "PAGEDJS_STATE_CHANGE", "UI_STATE_CHANGE",
        "RESET_STATE"] : List String) := by decide
  have h := c10_unknown_action_dispatch exManager exActionUnknown exNow hnot
  exact ⟨hnot, h.1, h.2.2.1⟩
